import Mathlib

/-!
# AssemblyWidget (src/assemblyWidget.js)

A shallow embedding of the `AssemblyWidget` class: the widget's fields, the part
of the DOM it reads and writes, the event bus it publishes to, and each of its
methods as a state transformer.  JavaScript exceptions do not roll the state
back, so a method that can throw returns an `Outcome`: the state reached and the
error raised, if any.
-/

namespace AssemblyWidget

/-! ## JavaScript values -/

/-- An error raised by a JavaScript operation. -/
inductive JSError where
  | typeError (msg : String)
  deriving DecidableEq, Repr

/-- The result of running a method: the state reached, and the exception thrown
(the state is the one at the point of the throw). -/
structure Outcome (σ : Type) where
  state : σ
  thrown : Option JSError

/-- WhiteSpace and LineTerminator code points of ECMAScript, the characters
`String.prototype.trim` strips. -/
def isWhiteSpace (c : Char) : Bool :=
  decide (c.toNat ∈ [0x09, 0x0A, 0x0B, 0x0C, 0x0D, 0x20, 0xA0, 0x1680,
    0x2000, 0x2001, 0x2002, 0x2003, 0x2004, 0x2005, 0x2006, 0x2007, 0x2008, 0x2009, 0x200A,
    0x2028, 0x2029, 0x202F, 0x205F, 0x3000, 0xFEFF])

/-- Embeds `String.prototype.trim`: strips white space from both ends. -/
def trim (s : String) : String :=
  ⟨((s.data.dropWhile isWhiteSpace).reverse.dropWhile isWhiteSpace).reverse⟩

/-- Embeds `String.prototype.includes(search)`: `search` starts at some position
of `s`. -/
def includes (s search : String) : Bool :=
  s.data.tails.any (fun t => search.data.isPrefixOf t)

/-- The ASCII fragment of `String.prototype.toLowerCase`, used to instantiate the
`toLowerCase` parameter on ASCII inputs. -/
def asciiLower (s : String) : String :=
  ⟨s.data.map (fun c => if 65 ≤ c.toNat ∧ c.toNat ≤ 90 then Char.ofNat (c.toNat + 32) else c)⟩

/-- JS `Set.prototype.has` on an insertion-ordered set. -/
def setHas (s : List String) (x : String) : Bool := decide (x ∈ s)

/-- JS `Set.prototype.add`: appends unless already present. -/
def setAdd (s : List String) (x : String) : List String :=
  if x ∈ s then s else s ++ [x]

/-- JS `Set.prototype.delete`. -/
def setDelete (s : List String) (x : String) : List String :=
  s.filter (fun y => decide (y ≠ x))

/-- JS `new Set(iterable)`: adds the elements in order. -/
def setOfArray (xs : List String) : List String :=
  xs.foldl setAdd []

/-- JS `Map.prototype.get`. -/
def mapGet {V : Type} (m : List (String × V)) (k : String) : Option V :=
  (m.find? (fun e => decide (e.1 = k))).map Prod.snd

/-- JS `Map.prototype.set`: replaces the value in place when the key exists,
appends otherwise. -/
def mapSet {V : Type} : List (String × V) → String → V → List (String × V)
  | [], k, v => [(k, v)]
  | (k0, v0) :: m, k, v => if k0 = k then (k, v) :: m else (k0, v0) :: mapSet m k v

/-! ## Data model -/

/-- The two values of `emphasisMode`: `ASSEMBLY_SPINE_FEATURES_EMPHASIS`
(`'spine_features'`) and `ASSEMBLY_SUBGRAPH_EMPHASIS` (`'subgraph'`). -/
inductive EmphasisMode where
  | spineFeatures
  | subgraph
  deriving DecidableEq, Repr

/-- The widget methods that get bound with `.bind(this, ...)` and registered as
listeners. -/
inductive Handler where
  | onGearClick
  | onSearchInput
  | onSwitchChange
  | onAssemblySelectorClick (assembly : String)
  deriving DecidableEq, Repr

/-- A function object made by `method.bind(this, ...)`.  Every `bind` call makes
a new object; `id` is its identity. -/
structure BoundFn where
  id : Nat
  handler : Handler
  deriving DecidableEq, Repr

/-- DOM `addEventListener`: a function object already registered is not added
again. -/
def addEventListener (ls : List BoundFn) (f : BoundFn) : List BoundFn :=
  if ls.any (fun l => decide (l.id = f.id)) then ls else ls ++ [f]

/-- DOM `removeEventListener`: removes the registration of that very function
object. -/
def removeEventListener (ls : List BoundFn) (f : BoundFn) : List BoundFn :=
  ls.filter (fun l => decide (l.id ≠ f.id))

/-- DOM `classList.add`. -/
def classListAdd (cl : List String) (tok : String) : List String :=
  if tok ∈ cl then cl else cl ++ [tok]

/-- DOM `classList.remove`. -/
def classListRemove (cl : List String) (tok : String) : List String :=
  cl.filter (fun t => decide (t ≠ tok))

/-- The `div.assembly-widget__genome-selector` of a row: its inline style, its
`data-assembly` attribute, the `onAssemblySelectorClick` property stored on the
element, and its `click` listeners. -/
structure Selector where
  backgroundColor : String
  border : String
  transform : String
  datasetAssembly : String
  onAssemblySelectorClick : Option BoundFn
  clickListeners : List BoundFn
  deriving DecidableEq, Repr

/-- The `span` holding the assembly name. -/
structure Label where
  className : String
  textContent : String
  deriving DecidableEq, Repr

/-- A row element.  `selector` is what
`item.querySelector('.assembly-widget__genome-selector')` returns. -/
structure ListItem where
  classList : List String
  selector : Option Selector
  label : Option Label
  deriving DecidableEq, Repr

/-- Identity of a row element. -/
abbrev ElemId := Nat

/-- The `#assembly-search` input element. -/
structure SearchInput where
  value : String
  inputListeners : List BoundFn
  deriving DecidableEq, Repr

/-- The `.form-check-input[type="checkbox"]` element. -/
structure SwitchInput where
  changeListeners : List BoundFn
  deriving DecidableEq, Repr

/-- The `#emphasis-mode-label` element. -/
structure ModeLabel where
  textContent : String
  deriving DecidableEq, Repr

/-- An element of the container that the widget looks up lazily: `elem` is the
element in the document, `bound` tells whether the widget's field already points
to it (the field is `null` while `bound` is false).  An element absent from the
document is `none : Option (Lazy _)`. -/
structure Lazy (α : Type) where
  elem : α
  bound : Bool
  deriving DecidableEq, Repr

/-- A node of `spineFeatures.spine.nodes`; only its `id` is read. -/
structure SpineNode where
  id : String
  deriving DecidableEq, Repr

/-- The object `spineFeatures.spine`. -/
structure Spine where
  nodes : List SpineNode
  edges : List String
  deriving DecidableEq, Repr

/-- The object `spineFeatures`. -/
structure SpineFeatures where
  spine : Spine
  deriving DecidableEq, Repr

/-- The object `assemblySubgraph`. -/
structure Subgraph where
  nodes : List String
  edges : List String
  deriving DecidableEq, Repr

/-- A value of `genomicService.assemblyWalkMap`. -/
structure WalkEntry where
  spineFeatures : SpineFeatures
  assemblySubgraph : Subgraph
  deriving DecidableEq, Repr

/-- The `geometryManager.geometryFactory` collaborator: what `getNodeNameSet()`
and `getEdgeNameSet()` currently return. -/
structure GeometryFactory where
  nodeNameSet : List String
  edgeNameSet : List String
  deriving DecidableEq, Repr

/-- An event handed to `eventBus.publish`: the topic and its payload. -/
inductive BusEvent where
  | normal (nodeSet edgeSet : List String)
  | emphasis (assembly : String) (nodeSet edgeSet : List String)
  deriving DecidableEq, Repr

/-- A line written with `console.log` or `console.error`. -/
inductive ConsoleEntry where
  | log (msg : String)
  | error (msg : String)
  deriving DecidableEq, Repr

/-- Modelled from the spec: the `Draggable` of `./utils/draggable.js`, the
"drag-behavior resource" that `destroy` releases; `destroyed` records that its
`destroy()` was called. -/
structure Draggable where
  destroyed : Bool
  deriving DecidableEq, Repr

/-- The two callbacks the widget hands to `setTimeout`, with their delay (0 ms
for `showCard`, 200 ms for `hideCard`). -/
inductive Timer where
  | showCard
  | hideCard
  deriving DecidableEq, Repr

/-- The widget together with the part of the page and of the event bus it acts
on. -/
structure Widget where
  /-- The `click` listeners of the gear element. -/
  gearListeners : List BoundFn
  /-- The tokens of `assemblyWidgetContainer.classList`. -/
  containerClassList : List String
  /-- The value of `assemblyWidgetContainer.style.display`. -/
  containerDisplay : String
  /-- The field `this.listGroup`: `none` when `querySelector('.list-group')` found nothing,
  else the child rows of the list element in document order. -/
  listGroup : Option (List ElemId)
  /-- The `#assembly-search` element and `this.searchInput`. -/
  searchInput : Option (Lazy SearchInput)
  /-- The switch checkbox and `this.switchInput`. -/
  switchInput : Option (Lazy SwitchInput)
  /-- The `#emphasis-mode-label` element and `this.modeLabel`. -/
  modeLabel : Option (Lazy ModeLabel)
  /-- The row elements, by identity. -/
  items : ElemId → ListItem
  /-- Identity of the next element made by `document.createElement`. -/
  nextElem : Nat
  /-- Identity of the next function object made by `bind`. -/
  nextFn : Nat
  /-- Whether the handler the constructor passed to
  `eventBus.subscribe('assembly:normal', ...)` is subscribed. -/
  restoreSubscribed : Bool
  /-- The events passed to `eventBus.publish`, oldest first. -/
  published : List BusEvent
  /-- The field `this.draggable`. -/
  draggable : Draggable
  /-- The field `this.selectedAssemblies`. -/
  selectedAssemblies : List String
  /-- The field `this.allAssemblyItems`. -/
  allAssemblyItems : List (String × ElemId)
  /-- The field `this.emphasisMode`. -/
  emphasisMode : EmphasisMode
  /-- The console output, oldest first. -/
  console : List ConsoleEntry
  /-- The callbacks handed to `setTimeout` and not yet run, oldest first. -/
  timers : List Timer

/-- A row is visible when its class list does not hold `d-none`. -/
def visible (s : Widget) (r : ElemId) : Bool :=
  !decide ("d-none" ∈ (s.items r).classList)

/-- Applies `f` to the row `r`. -/
def modifyItem (s : Widget) (r : ElemId) (f : ListItem → ListItem) : Widget :=
  { s with items := Function.update s.items r (f (s.items r)) }

/-- Appends a console line. -/
def consoleLog (s : Widget) (msg : String) : Widget :=
  { s with console := s.console ++ [ConsoleEntry.log msg] }

/-- Appends a console error line. -/
def consoleError (s : Widget) (msg : String) : Widget :=
  { s with console := s.console ++ [ConsoleEntry.error msg] }

/-! ## The event bus -/

/-- The two style writes of the `assembly:normal` handler on one selector:
`border = '2px solid transparent'` and `transform = 'scale(1)'`. -/
def resetStyle (it : ListItem) : ListItem :=
  { it with selector := it.selector.map (fun sel =>
      { sel with border := "2px solid transparent", transform := "scale(1)" }) }

/-- The two style writes on `event.target` when a row is selected:
`border = '2px solid #000'` and `transform = 'scale(1.5)'`. -/
def selectStyle (it : ListItem) : ListItem :=
  { it with selector := it.selector.map (fun sel =>
      { sel with border := "2px solid #000", transform := "scale(1.5)" }) }

/-- The handler the constructor subscribes to `assembly:normal`: resets border
and scale of every selector inside the list element.  `this.listGroup` is
dereferenced without a check. -/
def restoreHandler (s : Widget) : Outcome Widget :=
  match s.listGroup with
  | none => ⟨s, some (JSError.typeError "this.listGroup is null")⟩
  | some rows => ⟨rows.foldl (fun st r => modifyItem st r resetStyle) s, none⟩

/-- Modelled from the spec: `publish(topic, payload)` of `./utils/eventBus.js`,
which notifies the handlers subscribed to the topic.  The widget's own handler
is the only subscriber modelled; an exception it raises propagates to the
publisher. -/
def publish (ev : BusEvent) (s : Widget) : Outcome Widget :=
  let s1 := { s with published := s.published ++ [ev] }
  match ev with
  | BusEvent.normal _ _ => if s1.restoreSubscribed then restoreHandler s1 else ⟨s1, none⟩
  | BusEvent.emphasis _ _ _ => ⟨s1, none⟩

/-! ## Methods -/

section Methods

variable {Color : Type}

/-- Embeds `createListItem(assembly, color)`; `colorToRGBString` is the helper of
`./utils/color.js`.  Returns the new row and the state holding it. -/
def createListItem (colorToRGBString : Color → String) (assembly : String) (color : Color)
    (s : Widget) : ElemId × Widget :=
  let onAssemblySelectorClick : BoundFn := ⟨s.nextFn, Handler.onAssemblySelectorClick assembly⟩
  let assemblySelector : Selector :=
    { backgroundColor := colorToRGBString color
      border := ""
      transform := ""
      datasetAssembly := assembly
      onAssemblySelectorClick := some onAssemblySelectorClick
      clickListeners := addEventListener [] onAssemblySelectorClick }
  let label : Label := { className := "flex-grow-1", textContent := assembly }
  let container : ListItem :=
    { classList := ["list-group-item", "d-flex", "align-items-center", "gap-3"]
      selector := some assemblySelector
      label := some label }
  (s.nextElem,
   { s with items := Function.update s.items s.nextElem container,
            nextElem := s.nextElem + 1,
            nextFn := s.nextFn + 1 })

/-- Embeds `emphasizeAssembly(assembly)`.  `assemblyWalkMap.get(assembly)` is
`undefined` for an unknown assembly, and reading a property of it throws. -/
def emphasizeAssembly (assemblyWalkMap : List (String × WalkEntry)) (assembly : String)
    (s : Widget) : Outcome Widget :=
  if s.emphasisMode = EmphasisMode.spineFeatures then
    match mapGet assemblyWalkMap assembly with
    | none => ⟨s, some (JSError.typeError "assemblyWalkMap.get(assembly) is undefined")⟩
    | some entry =>
      let spine := entry.spineFeatures.spine
      let nodeSet := setOfArray (spine.nodes.map (fun n => n.id))
      let edgeSet := setOfArray spine.edges
      publish (BusEvent.emphasis assembly nodeSet edgeSet) s
  else
    match mapGet assemblyWalkMap assembly with
    | none => ⟨s, some (JSError.typeError "assemblyWalkMap.get(assembly) is undefined")⟩
    | some entry =>
      let nodeSet := setOfArray entry.assemblySubgraph.nodes
      let edgeSet := setOfArray entry.assemblySubgraph.edges
      publish (BusEvent.emphasis assembly nodeSet edgeSet) s

/-- Embeds `onAssemblySelectorClick(assembly, event)`; `target` is the row whose
selector is `event.target`. -/
def onAssemblySelectorClick (assemblyWalkMap : List (String × WalkEntry))
    (geometryFactory : GeometryFactory) (assembly : String) (target : ElemId)
    (s : Widget) : Outcome Widget :=
  if setHas s.selectedAssemblies assembly then
    let s1 := { s with selectedAssemblies := setDelete s.selectedAssemblies assembly }
    publish (BusEvent.normal geometryFactory.nodeNameSet geometryFactory.edgeNameSet) s1
  else
    let o : Outcome Widget :=
      match s.selectedAssemblies with
      | [] => ⟨s, none⟩
      | previousAssembly :: _ =>
        let s1 := { s with selectedAssemblies := setDelete s.selectedAssemblies previousAssembly }
        publish (BusEvent.normal geometryFactory.nodeNameSet geometryFactory.edgeNameSet) s1
    match o.thrown with
    | some err => ⟨o.state, some err⟩
    | none =>
      let s2 := consoleLog o.state ("selected " ++ assembly)
      let s3 := { s2 with selectedAssemblies := setAdd s2.selectedAssemblies assembly }
      let s4 := modifyItem s3 target selectStyle
      emphasizeAssembly assemblyWalkMap assembly s4

/-- Embeds `updateModeLabel()`. -/
def updateModeLabel (s : Widget) : Widget :=
  match s.modeLabel with
  | some ⟨label, true⟩ =>
    if s.emphasisMode = EmphasisMode.spineFeatures then
      { s with modeLabel := some ⟨{ label with textContent := "Assembly Walk" }, true⟩ }
    else
      { s with modeLabel := some ⟨{ label with textContent := "Assembly Subgraph" }, true⟩ }
  | _ => s

/-- Embeds `initializeSearchInput()`. -/
def initializeSearchInput (s : Widget) : Widget :=
  match s.searchInput with
  | some ⟨_, true⟩ => s
  | some ⟨input, false⟩ =>
    let listeners := addEventListener input.inputListeners ⟨s.nextFn, Handler.onSearchInput⟩
    consoleLog
      { s with searchInput := some ⟨{ input with inputListeners := listeners }, true⟩,
               nextFn := s.nextFn + 1 }
      "Search input initialized successfully"
  | none => consoleError s "Search input element not found"

/-- Embeds `initializeSwitchInput()`. -/
def initializeSwitchInput (s : Widget) : Widget :=
  match s.switchInput with
  | some ⟨_, true⟩ => s
  | some ⟨input, false⟩ =>
    let listeners := addEventListener input.changeListeners ⟨s.nextFn, Handler.onSwitchChange⟩
    consoleLog
      { s with switchInput := some ⟨{ input with changeListeners := listeners }, true⟩,
               nextFn := s.nextFn + 1 }
      "Switch input initialized successfully"
  | none => consoleError s "Switch input element not found"

/-- Embeds `initializeModeLabel()`. -/
def initializeModeLabel (s : Widget) : Widget :=
  match s.modeLabel with
  | some ⟨_, true⟩ => s
  | some ⟨label, false⟩ =>
    consoleLog (updateModeLabel { s with modeLabel := some ⟨label, true⟩ })
      "Mode label initialized successfully"
  | none => consoleError s "Mode label element not found"

/-- The call `item.classList.remove('d-none')`. -/
def showItem (it : ListItem) : ListItem :=
  { it with classList := classListRemove it.classList "d-none" }

/-- The call `item.classList.add('d-none')`. -/
def hideItem (it : ListItem) : ListItem :=
  { it with classList := classListAdd it.classList "d-none" }

/-- Embeds `filterAssemblies(searchTerm)`; `toLowerCase` is
`String.prototype.toLowerCase`. -/
def filterAssemblies (toLowerCase : String → String) (searchTerm : String) (s : Widget) : Widget :=
  s.allAssemblyItems.foldl (fun st e =>
    let isMatch := includes (toLowerCase e.1) searchTerm
    if isMatch then modifyItem st e.2 showItem else modifyItem st e.2 hideItem) s

/-- Embeds `onSearchInput(event)`; `value` is `event.target.value`. -/
def onSearchInput (toLowerCase : String → String) (value : String) (s : Widget) : Widget :=
  let searchTerm := trim (toLowerCase value)
  let s1 := consoleLog s ("Search term: " ++ searchTerm)
  if searchTerm = "" then
    consoleLog (s1.allAssemblyItems.foldl (fun st e => modifyItem st e.2 showItem) s1)
      "Search cleared - all assemblies restored"
  else
    filterAssemblies toLowerCase searchTerm s1

/-- Embeds `onSwitchChange(event)`; `isChecked` is `event.target.checked`. -/
def onSwitchChange (assemblyWalkMap : List (String × WalkEntry)) (isChecked : Bool)
    (s : Widget) : Outcome Widget :=
  let s1 := consoleLog s ("Switch toggled: " ++ toString isChecked)
  let s2 : Widget :=
    if isChecked then { s1 with emphasisMode := EmphasisMode.spineFeatures }
    else { s1 with emphasisMode := EmphasisMode.subgraph }
  let s3 := consoleLog s2 ("Emphasis mode changed to: " ++
    (if s2.emphasisMode = EmphasisMode.spineFeatures then "spine_features" else "subgraph"))
  let s4 := updateModeLabel s3
  match s4.selectedAssemblies with
  | [] => ⟨s4, none⟩
  | selectedAssembly :: _ => emphasizeAssembly assemblyWalkMap selectedAssembly s4

/-- Embeds `cleanupListItem(item)`. -/
def cleanupListItem (s : Widget) (item : ElemId) : Widget :=
  match (s.items item).selector with
  | none => s
  | some assemblySelector =>
    match assemblySelector.onAssemblySelectorClick with
    | none => s
    | some f =>
      let cleaned : Selector :=
        { assemblySelector with
            clickListeners := removeEventListener assemblySelector.clickListeners f,
            onAssemblySelectorClick := none }
      modifyItem s item (fun it => { it with selector := some cleaned })

/-- The body of the second loop of `populateList`: creates the row of one
payload entry, appends it to the list element and registers it. -/
def appendAssembly (colorToRGBString : Color → String) (st : Widget) (e : String × Color) :
    Widget :=
  let r := createListItem colorToRGBString e.1 e.2 st
  let st1 := { r.2 with listGroup := r.2.listGroup.map (fun children => children ++ [r.1]) }
  { st1 with allAssemblyItems := mapSet st1.allAssemblyItems e.1 r.1 }

/-- Embeds `populateList()`; `assemblyPayload` is what
`genomicService.assemblyPayload.entries()` yields (assembly and its colour).
`this.listGroup` is dereferenced without a check. -/
def populateList (colorToRGBString : Color → String) (assemblyPayload : List (String × Color))
    (s : Widget) : Outcome Widget :=
  match s.listGroup with
  | none => ⟨s, some (JSError.typeError "this.listGroup is null")⟩
  | some rows =>
    let s1 := (rows.filter (fun r => decide ("list-group-item" ∈ (s.items r).classList))).foldl
      cleanupListItem s
    let s2 := { s1 with listGroup := some [] }
    let s3 := { s2 with allAssemblyItems := [] }
    ⟨assemblyPayload.foldl (appendAssembly colorToRGBString) s3, none⟩

/-- Embeds `configure()`. -/
def configure (colorToRGBString : Color → String) (assemblyPayload : List (String × Color))
    (s : Widget) : Outcome Widget :=
  populateList colorToRGBString assemblyPayload s

end Methods

/-- Embeds `showCard()` up to its `setTimeout` call. -/
def showCard (s : Widget) : Widget :=
  { s with containerDisplay := "", timers := s.timers ++ [Timer.showCard] }

/-- The callback `showCard` hands to `setTimeout`. -/
def showCardTimeout (s : Widget) : Widget :=
  initializeModeLabel (initializeSwitchInput (initializeSearchInput
    { s with containerClassList := classListAdd s.containerClassList "show" }))

/-- Embeds `hideCard()` up to its `setTimeout` call. -/
def hideCard (s : Widget) : Widget :=
  { s with containerClassList := classListRemove s.containerClassList "show",
           timers := s.timers ++ [Timer.hideCard] }

/-- The callback `hideCard` hands to `setTimeout`; `toLowerCase` is
`String.prototype.toLowerCase`. -/
def hideCardTimeout (toLowerCase : String → String) (s : Widget) : Widget :=
  let s1 := { s with containerDisplay := "none" }
  match s1.searchInput with
  | some ⟨input, true⟩ =>
    filterAssemblies toLowerCase "" { s1 with searchInput := some ⟨{ input with value := "" }, true⟩ }
  | _ => s1

/-- Runs the oldest pending callback of kind `t`, if there is one. -/
def runTimer (toLowerCase : String → String) (t : Timer) (s : Widget) : Widget :=
  if t ∈ s.timers then
    let s1 := { s with timers := s.timers.erase t }
    match t with
    | Timer.showCard => showCardTimeout s1
    | Timer.hideCard => hideCardTimeout toLowerCase s1
  else s

/-- Embeds `onGearClick(event)`. -/
def onGearClick (s : Widget) : Widget :=
  if "show" ∈ s.containerClassList then hideCard s else showCard s

/-- The page the constructor is given: the gear element, the container with the
elements it may or may not hold, the rows already in the document, and the
state of the collaborators. -/
structure Page where
  gearListeners : List BoundFn
  containerClassList : List String
  containerDisplay : String
  listGroup : Option (List ElemId)
  searchInput : Option SearchInput
  switchInput : Option SwitchInput
  modeLabel : Option ModeLabel
  items : ElemId → ListItem
  nextElem : Nat
  nextFn : Nat
  published : List BusEvent
  console : List ConsoleEntry
  timers : List Timer

/-- One click on a row selector: the arguments of `onAssemblySelectorClick` and
what the collaborators hold at that moment. -/
structure ClickEvent where
  assemblyWalkMap : List (String × WalkEntry)
  geometryFactory : GeometryFactory
  assembly : String
  target : ElemId

/-- The state after a sequence of row clicks, each dispatched to
`onAssemblySelectorClick`; an exception in one click (a rejected promise of the
async handler) does not stop the later ones. -/
def runClicks : List ClickEvent → Widget → Widget
  | [], s => s
  | c :: cs, s =>
    runClicks cs
      (onAssemblySelectorClick c.assemblyWalkMap c.geometryFactory c.assembly c.target s).state

/-- Embeds the constructor. -/
def construct (p : Page) : Widget :=
  { gearListeners := addEventListener p.gearListeners ⟨p.nextFn, Handler.onGearClick⟩
    containerClassList := p.containerClassList
    containerDisplay := p.containerDisplay
    listGroup := p.listGroup
    searchInput := p.searchInput.map (fun e => ⟨e, false⟩)
    switchInput := p.switchInput.map (fun e => ⟨e, false⟩)
    modeLabel := p.modeLabel.map (fun e => ⟨e, false⟩)
    items := p.items
    nextElem := p.nextElem
    nextFn := p.nextFn + 1
    restoreSubscribed := true
    published := p.published
    draggable := ⟨false⟩
    selectedAssemblies := []
    allAssemblyItems := []
    emphasisMode := EmphasisMode.subgraph
    console := p.console
    timers := p.timers }

/-- Embeds `destroy()`.  Each `this.method.bind(this)` it passes to
`removeEventListener` is a new function object. -/
def destroy (s : Widget) : Widget :=
  let s1 := { s with draggable := { s.draggable with destroyed := true } }
  let s2 : Widget :=
    match s1.searchInput with
    | some ⟨input, true⟩ =>
      let listeners := removeEventListener input.inputListeners ⟨s1.nextFn, Handler.onSearchInput⟩
      { s1 with searchInput := some ⟨{ input with inputListeners := listeners }, true⟩,
                nextFn := s1.nextFn + 1 }
    | _ => s1
  match s2.switchInput with
  | some ⟨input, true⟩ =>
    let listeners := removeEventListener input.changeListeners ⟨s2.nextFn, Handler.onSwitchChange⟩
    { s2 with switchInput := some ⟨{ input with changeListeners := listeners }, true⟩,
              nextFn := s2.nextFn + 1 }
  | _ => s2

/-! ## Descriptions used in the statements -/

/-- The row `createListItem` builds for `assembly` when `fn` is the identity of
the click handler it binds. -/
def createdRow {Color : Type} (colorToRGBString : Color → String) (assembly : String)
    (color : Color) (fn : Nat) : ListItem :=
  { classList := ["list-group-item", "d-flex", "align-items-center", "gap-3"]
    selector := some
      { backgroundColor := colorToRGBString color
        border := ""
        transform := ""
        datasetAssembly := assembly
        onAssemblySelectorClick := some ⟨fn, Handler.onAssemblySelectorClick assembly⟩
        clickListeners := [⟨fn, Handler.onAssemblySelectorClick assembly⟩] }
    label := some ⟨"flex-grow-1", assembly⟩ }

/-- What the claim calls containing the term as a substring compared
case-insensitively: both strings are lower-cased, the term is taken as typed. -/
def containsIgnoringCase (toLowerCase : String → String) (identifier term : String) : Bool :=
  includes (toLowerCase identifier) (toLowerCase term)

/-! ## Worked examples -/

/-- The page of the worked examples: an empty list element, a search input, a
switch and a mode label, nothing registered yet. -/
def examplePage : Page :=
  { gearListeners := [], containerClassList := [], containerDisplay := "none",
    listGroup := some [], searchInput := some ⟨"", []⟩, switchInput := some ⟨[]⟩,
    modeLabel := some ⟨""⟩, items := fun _ => ⟨[], none, none⟩, nextElem := 0, nextFn := 0,
    published := [], console := [], timers := [] }

/-- A page whose container holds no `.list-group` element. -/
def pageWithoutList : Page := { examplePage with listGroup := none }

/-- The walk-map entry of assembly `chr1` in the worked examples; node `n1` and
node `m1` occur twice. -/
def exampleEntry : WalkEntry :=
  ⟨⟨⟨[⟨"n1"⟩, ⟨"n2"⟩, ⟨"n1"⟩], ["e1"]⟩⟩, ⟨["m1", "m1"], ["f1", "f2"]⟩⟩

/-- The walk map of the worked examples. -/
def exampleWalkMap : List (String × WalkEntry) :=
  [("chr1", exampleEntry), ("CHR2", ⟨⟨⟨[⟨"n3"⟩], []⟩⟩, ⟨["m2"], []⟩⟩)]

/-- The geometry source of the worked examples. -/
def exampleGeometry : GeometryFactory := ⟨["n1", "n2", "n3"], ["e1"]⟩

/-- A widget built on `examplePage` whose card has been shown and whose list has
been populated with the assemblies `chr1` and `CHR2`. -/
def exampleWidget : Widget :=
  (populateList (fun (c : String) => c) [("chr1", "red"), ("CHR2", "blue")]
    (showCardTimeout (showCard (construct examplePage)))).state

/-- The widget `exampleWidget` after `chr1` has been typed into the search
input and the input event handled: the row of `CHR2` is hidden. -/
def exampleFiltered : Widget :=
  { onSearchInput asciiLower "chr1" exampleWidget with
    searchInput := some ⟨⟨"chr1", [⟨1, Handler.onSearchInput⟩]⟩, true⟩ }

/-- A page whose card is already shown (the container carries `show`) and whose
search input already holds the text `chr1`. -/
def pageShown : Page :=
  { examplePage with containerClassList := ["show"], searchInput := some ⟨"chr1", []⟩ }

/-- A widget built on `pageShown`, its list populated with `chr1` and `CHR2`,
after `onSearchInput` has handled the text `chr1`: the row of `CHR2` is hidden,
and `this.searchInput` is still null because `showCard` never ran. -/
def exampleUnbound : Widget :=
  onSearchInput asciiLower "chr1"
    (configure (fun (c : String) => c) [("chr1", "red"), ("CHR2", "blue")]
      (construct pageShown)).state

/-! ## Auxiliary facts -/

theorem foldl_modifyItem {β : Type} (key : β → ElemId) (f : β → ListItem → ListItem)
    (l : List β) (s : Widget) :
    l.foldl (fun st e => modifyItem st (key e) (f e)) s =
      { s with items := l.foldl (fun it e => Function.update it (key e) (f e (it (key e)))) s.items } := by
  induction l generalizing s with
  | nil => rfl
  | cons e l ih => rw [List.foldl_cons, ih]; rfl

theorem restoreHandler_state (s : Widget) :
    (restoreHandler s).state = { s with items := (restoreHandler s).state.items } := by
  unfold restoreHandler
  split
  · rfl
  · simp only [foldl_modifyItem (fun r => r) (fun _ => resetStyle)]

theorem restoreHandler_thrown (s : Widget) (h : s.listGroup.isSome) :
    (restoreHandler s).thrown = none := by
  unfold restoreHandler
  cases hl : s.listGroup with
  | none => simp [hl] at h
  | some rows => rfl

theorem publish_state (ev : BusEvent) (s : Widget) :
    (publish ev s).state =
      { s with published := s.published ++ [ev], items := (publish ev s).state.items } := by
  unfold publish
  cases ev with
  | normal n e =>
    dsimp only
    split
    · rw [restoreHandler_state]
    · rfl
  | emphasis a n e => rfl

theorem publish_thrown (ev : BusEvent) (s : Widget) (h : s.listGroup.isSome) :
    (publish ev s).thrown = none := by
  unfold publish
  cases ev with
  | normal n e =>
    dsimp only
    split
    · exact restoreHandler_thrown _ h
    · rfl
  | emphasis a n e => rfl

theorem publish_emphasis (a : String) (n e : List String) (s : Widget) :
    publish (BusEvent.emphasis a n e) s = ⟨{ s with published := s.published ++ [BusEvent.emphasis a n e] }, none⟩ := rfl
theorem emphasizeAssembly_of_get (walkMap : List (String × WalkEntry)) (a : String) (s : Widget)
    (entry : WalkEntry) (hget : mapGet walkMap a = some entry) :
    emphasizeAssembly walkMap a s =
      ⟨{ s with published := s.published ++
          [if s.emphasisMode = EmphasisMode.spineFeatures then
             BusEvent.emphasis a (setOfArray (entry.spineFeatures.spine.nodes.map (fun n => n.id)))
               (setOfArray entry.spineFeatures.spine.edges)
           else
             BusEvent.emphasis a (setOfArray entry.assemblySubgraph.nodes)
               (setOfArray entry.assemblySubgraph.edges)] }, none⟩ := by
  unfold emphasizeAssembly
  split <;> simp [hget, publish_emphasis]

theorem emphasizeAssembly_state (walkMap : List (String × WalkEntry)) (a : String) (s : Widget) :
    (emphasizeAssembly walkMap a s).state =
      { s with published := (emphasizeAssembly walkMap a s).state.published } := by
  cases hget : mapGet walkMap a with
  | none => unfold emphasizeAssembly; split <;> simp [hget]
  | some entry => rw [emphasizeAssembly_of_get walkMap a s entry hget]

theorem click_deselect (walkMap : List (String × WalkEntry)) (geo : GeometryFactory)
    (a : String) (t : ElemId) (s : Widget) (hmem : a ∈ s.selectedAssemblies) :
    (onAssemblySelectorClick walkMap geo a t s).state.selectedAssemblies
        = setDelete s.selectedAssemblies a ∧
      (onAssemblySelectorClick walkMap geo a t s).state.published
        = s.published ++ [BusEvent.normal geo.nodeNameSet geo.edgeNameSet] ∧
      (onAssemblySelectorClick walkMap geo a t s).state.listGroup = s.listGroup := by
  unfold onAssemblySelectorClick
  rw [if_pos (by simpa [setHas] using hmem), publish_state]
  exact ⟨rfl, rfl, rfl⟩

theorem click_select_sel (walkMap : List (String × WalkEntry)) (geo : GeometryFactory)
    (a : String) (t : ElemId) (s : Widget) (hnot : a ∉ s.selectedAssemblies)
    (hlist : s.listGroup.isSome) :
    (onAssemblySelectorClick walkMap geo a t s).state.selectedAssemblies
        = setAdd (match s.selectedAssemblies with
                  | [] => []
                  | p :: _ => setDelete s.selectedAssemblies p) a ∧
      (onAssemblySelectorClick walkMap geo a t s).state.listGroup = s.listGroup := by
  unfold onAssemblySelectorClick
  rw [if_neg (by simpa [setHas] using hnot)]
  cases hsel : s.selectedAssemblies with
  | nil =>
    dsimp only
    rw [emphasizeAssembly_state]
    exact ⟨by simp [modifyItem, consoleLog, hsel], rfl⟩
  | cons p rest =>
    dsimp only
    have hthr := publish_thrown (BusEvent.normal geo.nodeNameSet geo.edgeNameSet)
      { s with selectedAssemblies := setDelete (p :: rest) p } hlist
    rw [hthr]
    dsimp only
    rw [emphasizeAssembly_state, publish_state]
    exact ⟨by simp [modifyItem, consoleLog, hsel], rfl⟩

theorem click_select_pub (walkMap : List (String × WalkEntry)) (geo : GeometryFactory)
    (a : String) (t : ElemId) (s : Widget) (entry : WalkEntry)
    (hget : mapGet walkMap a = some entry) (hnot : a ∉ s.selectedAssemblies)
    (hlist : s.listGroup.isSome) :
    (onAssemblySelectorClick walkMap geo a t s).thrown = none ∧
      (onAssemblySelectorClick walkMap geo a t s).state.emphasisMode = s.emphasisMode ∧
      (onAssemblySelectorClick walkMap geo a t s).state.published
        = (s.published ++ (match s.selectedAssemblies with
                  | [] => []
                  | _ :: _ => [BusEvent.normal geo.nodeNameSet geo.edgeNameSet])) ++
          [if s.emphasisMode = EmphasisMode.spineFeatures then
             BusEvent.emphasis a (setOfArray (entry.spineFeatures.spine.nodes.map (fun n => n.id)))
               (setOfArray entry.spineFeatures.spine.edges)
           else
             BusEvent.emphasis a (setOfArray entry.assemblySubgraph.nodes)
               (setOfArray entry.assemblySubgraph.edges)] := by
  unfold onAssemblySelectorClick
  rw [if_neg (by simpa [setHas] using hnot)]
  cases hsel : s.selectedAssemblies with
  | nil =>
    dsimp only
    rw [emphasizeAssembly_of_get _ _ _ entry hget]
    exact ⟨rfl, rfl, by simp [modifyItem, consoleLog]⟩
  | cons p rest =>
    dsimp only
    have hthr := publish_thrown (BusEvent.normal geo.nodeNameSet geo.edgeNameSet)
      { s with selectedAssemblies := setDelete (p :: rest) p } hlist
    rw [hthr]
    dsimp only
    rw [emphasizeAssembly_of_get _ _ _ entry hget, publish_state]
    exact ⟨rfl, rfl, by simp [modifyItem, consoleLog]⟩
/-! ### Selection -/

theorem setDelete_length_le (sel : List String) (x : String) :
    (setDelete sel x).length ≤ sel.length :=
  List.length_filter_le _ _

theorem setDelete_singleton (x : String) : setDelete [x] x = [] := by
  simp [setDelete]

theorem setAdd_nil (x : String) : setAdd [] x = [x] := by
  simp [setAdd]

theorem mem_setAdd (sel : List String) (x y : String) :
    y ∈ setAdd sel x ↔ y ∈ sel ∨ y = x := by
  unfold setAdd
  split
  · constructor
    · exact Or.inl
    · rintro (h | rfl)
      · exact h
      · assumption
  · simp

theorem nodup_setAdd (sel : List String) (x : String) (h : sel.Nodup) : (setAdd sel x).Nodup := by
  unfold setAdd
  split
  · exact h
  · rename_i hx
    rw [List.nodup_append]
    refine ⟨h, List.nodup_singleton x, ?_⟩
    intro a ha hb
    rw [List.mem_singleton] at hb
    exact hx (hb ▸ ha)

theorem setOfArray_aux (xs acc : List String) :
    (∀ y, y ∈ xs.foldl setAdd acc ↔ y ∈ acc ∨ y ∈ xs) ∧
      (acc.Nodup → (xs.foldl setAdd acc).Nodup) := by
  induction xs generalizing acc with
  | nil => simp
  | cons x xs ih =>
    rw [List.foldl_cons]
    refine ⟨fun y => ?_, fun h => (ih _).2 (nodup_setAdd acc x h)⟩
    rw [(ih _).1, mem_setAdd, List.mem_cons]
    tauto

theorem mem_setOfArray (xs : List String) (y : String) : y ∈ setOfArray xs ↔ y ∈ xs := by
  unfold setOfArray
  rw [(setOfArray_aux xs []).1]
  simp

theorem nodup_setOfArray (xs : List String) : (setOfArray xs).Nodup :=
  (setOfArray_aux xs []).2 List.nodup_nil

theorem runClicks_append (pre : List ClickEvent) (c : ClickEvent) (s : Widget) :
    runClicks (pre ++ [c]) s =
      (onAssemblySelectorClick c.assemblyWalkMap c.geometryFactory c.assembly c.target
        (runClicks pre s)).state := by
  induction pre generalizing s with
  | nil => rfl
  | cons d pre ih => exact ih _

theorem click_single (c : ClickEvent) (s : Widget) (hlen : s.selectedAssemblies.length ≤ 1)
    (hlist : s.listGroup.isSome) :
    ((onAssemblySelectorClick c.assemblyWalkMap c.geometryFactory c.assembly c.target
        s).state.selectedAssemblies.length ≤ 1 ∧
      (onAssemblySelectorClick c.assemblyWalkMap c.geometryFactory c.assembly c.target
        s).state.listGroup.isSome) ∧
      (c.assembly ∉ s.selectedAssemblies →
        (onAssemblySelectorClick c.assemblyWalkMap c.geometryFactory c.assembly c.target
          s).state.selectedAssemblies = [c.assembly]) := by
  have hsel : c.assembly ∉ s.selectedAssemblies →
      (onAssemblySelectorClick c.assemblyWalkMap c.geometryFactory c.assembly c.target
          s).state.selectedAssemblies = [c.assembly] := by
    intro hnot
    rw [(click_select_sel _ _ _ _ s hnot hlist).1]
    match hs : s.selectedAssemblies, hlen with
    | [], _ => exact setAdd_nil _
    | [p], _ => simp only [setDelete_singleton, setAdd_nil]
    | _ :: _ :: _, h => simp at h
  refine ⟨?_, hsel⟩
  by_cases hmem : c.assembly ∈ s.selectedAssemblies
  · obtain ⟨h1, _, h3⟩ := click_deselect c.assemblyWalkMap c.geometryFactory c.assembly c.target s hmem
    rw [h1, h3]
    exact ⟨le_trans (setDelete_length_le _ _) hlen, hlist⟩
  · rw [hsel hmem, (click_select_sel _ _ _ _ s hmem hlist).2]
    exact ⟨le_refl 1, hlist⟩

theorem runClicks_single (clicks : List ClickEvent) (s : Widget)
    (hlen : s.selectedAssemblies.length ≤ 1) (hlist : s.listGroup.isSome) :
    (runClicks clicks s).selectedAssemblies.length ≤ 1 ∧ (runClicks clicks s).listGroup.isSome := by
  induction clicks generalizing s with
  | nil => exact ⟨hlen, hlist⟩
  | cons c cs ih =>
    obtain ⟨⟨h1, h2⟩, _⟩ := click_single c s hlen hlist
    exact ih _ h1 h2

/-- Claim C1: starting from an empty selection, after any finite sequence of row
clicks the selection holds at most one assembly; when the last click was on an
assembly not selected just before it, the selection is exactly that assembly;
in particular clicking A and then a different B leaves only B selected. -/
theorem single_selection_invariant (s : Widget) (hempty : s.selectedAssemblies = [])
    (hlist : s.listGroup.isSome) (clicks : List ClickEvent) :
    (runClicks clicks s).selectedAssemblies.length ≤ 1 ∧
      (∀ (pre : List ClickEvent) (last : ClickEvent), clicks = pre ++ [last] →
        last.assembly ∉ (runClicks pre s).selectedAssemblies →
        (runClicks clicks s).selectedAssemblies = [last.assembly]) ∧
      (∀ (cA cB : ClickEvent), clicks = [cA, cB] → cA.assembly ≠ cB.assembly →
        (runClicks clicks s).selectedAssemblies = [cB.assembly]) := by
  have hlen : s.selectedAssemblies.length ≤ 1 := by simp [hempty]
  have hlast : ∀ (pre : List ClickEvent) (last : ClickEvent), clicks = pre ++ [last] →
      last.assembly ∉ (runClicks pre s).selectedAssemblies →
      (runClicks clicks s).selectedAssemblies = [last.assembly] := by
    intro pre last hcl hnot
    obtain ⟨h1, h2⟩ := runClicks_single pre s hlen hlist
    rw [hcl, runClicks_append]
    exact (click_single last _ h1 h2).2 hnot
  refine ⟨(runClicks_single clicks s hlen hlist).1, hlast, ?_⟩
  intro cA cB hcl hne
  refine hlast [cA] cB (by simpa using hcl) ?_
  have hA : (runClicks [cA] s).selectedAssemblies = [cA.assembly] :=
    (click_single cA s hlen hlist).2 (by simp [hempty])
  rw [hA]
  simpa using Ne.symm hne

theorem single_selection_invariant_witness :
    exampleWidget.selectedAssemblies = [] ∧ exampleWidget.listGroup.isSome = true ∧
      (runClicks [⟨exampleWalkMap, exampleGeometry, "chr1", 0⟩,
          ⟨exampleWalkMap, exampleGeometry, "CHR2", 1⟩] exampleWidget).selectedAssemblies
        = ["CHR2"] :=
  ⟨by decide, by decide,
   (single_selection_invariant exampleWidget (by decide) (by decide)
      [⟨exampleWalkMap, exampleGeometry, "chr1", 0⟩,
        ⟨exampleWalkMap, exampleGeometry, "CHR2", 1⟩]).2.2 _ _ rfl (by decide)⟩

/-- Claim C5: clicking the row of an assembly A that has an entry in
`assemblyWalkMap` and is not selected publishes, as its last event, an
`assembly:emphasis` event carrying A; its node and edge sets have no duplicates
and hold exactly the elements of `assemblySubgraph.nodes` and
`assemblySubgraph.edges` in subgraph mode, and exactly the `id` fields of
`spineFeatures.spine.nodes` and the elements of `spineFeatures.spine.edges` in
spine-features mode. -/
theorem emphasis_payload_on_select (walkMap : List (String × WalkEntry))
    (geo : GeometryFactory) (A : String) (target : ElemId) (s : Widget) (entry : WalkEntry)
    (hget : mapGet walkMap A = some entry) (hnot : A ∉ s.selectedAssemblies)
    (hlist : s.listGroup.isSome) :
    ∃ nodeSet edgeSet : List String,
      (onAssemblySelectorClick walkMap geo A target s).thrown = none ∧
      (onAssemblySelectorClick walkMap geo A target s).state.published =
        (s.published ++ (match s.selectedAssemblies with
          | [] => []
          | _ :: _ => [BusEvent.normal geo.nodeNameSet geo.edgeNameSet])) ++
        [BusEvent.emphasis A nodeSet edgeSet] ∧
      nodeSet.Nodup ∧ edgeSet.Nodup ∧
      (s.emphasisMode = EmphasisMode.subgraph →
        (∀ x, x ∈ nodeSet ↔ x ∈ entry.assemblySubgraph.nodes) ∧
        (∀ x, x ∈ edgeSet ↔ x ∈ entry.assemblySubgraph.edges)) ∧
      (s.emphasisMode = EmphasisMode.spineFeatures →
        (∀ x, x ∈ nodeSet ↔ ∃ n ∈ entry.spineFeatures.spine.nodes, n.id = x) ∧
        (∀ x, x ∈ edgeSet ↔ x ∈ entry.spineFeatures.spine.edges)) := by
  obtain ⟨hthr, _, hpub⟩ := click_select_pub walkMap geo A target s entry hget hnot hlist
  by_cases hmode : s.emphasisMode = EmphasisMode.spineFeatures
  · refine ⟨setOfArray (entry.spineFeatures.spine.nodes.map (fun n => n.id)),
      setOfArray entry.spineFeatures.spine.edges, hthr, ?_, nodup_setOfArray _,
      nodup_setOfArray _, ?_, ?_⟩
    · rw [hpub, if_pos hmode]
    · intro h
      rw [hmode] at h
      cases h
    · intro _
      exact ⟨fun x => by rw [mem_setOfArray, List.mem_map], fun x => mem_setOfArray _ x⟩
  · refine ⟨setOfArray entry.assemblySubgraph.nodes, setOfArray entry.assemblySubgraph.edges,
      hthr, ?_, nodup_setOfArray _, nodup_setOfArray _, ?_, ?_⟩
    · rw [hpub, if_neg hmode]
    · intro _
      exact ⟨fun x => mem_setOfArray _ x, fun x => mem_setOfArray _ x⟩
    · intro h
      exact absurd h hmode

theorem emphasis_payload_on_select_witness :
    ∃ nodeSet edgeSet : List String,
      (onAssemblySelectorClick exampleWalkMap exampleGeometry "chr1" 0 exampleWidget).thrown
        = none ∧
      (onAssemblySelectorClick exampleWalkMap exampleGeometry "chr1" 0
        exampleWidget).state.published = [BusEvent.emphasis "chr1" nodeSet edgeSet] ∧
      nodeSet.Nodup ∧
      (∀ x, x ∈ nodeSet ↔ x ∈ ["m1", "m1"]) ∧ (∀ x, x ∈ edgeSet ↔ x ∈ ["f1", "f2"]) := by
  obtain ⟨n, e, h1, h2, h3, _, h5, _⟩ :=
    emphasis_payload_on_select exampleWalkMap exampleGeometry "chr1" 0 exampleWidget
      exampleEntry (by decide) (by decide) (by decide)
  exact ⟨n, e, h1, h2, h3, h5 (by decide)⟩

/-- Claim C7: from an empty selection, clicking the row of an assembly A that has
an entry in `assemblyWalkMap` and then clicking it again leaves the selection
empty, and the second click publishes an `assembly:normal` event carrying the
node and edge name sets the geometry source returns at that moment. -/
theorem select_then_deselect (walkMap1 walkMap2 : List (String × WalkEntry))
    (geo1 geo2 : GeometryFactory) (A : String) (t1 t2 : ElemId) (s : Widget) (entry : WalkEntry)
    (hempty : s.selectedAssemblies = []) (hget : mapGet walkMap1 A = some entry) :
    (onAssemblySelectorClick walkMap1 geo1 A t1 s).thrown = none ∧
      (onAssemblySelectorClick walkMap1 geo1 A t1 s).state.selectedAssemblies = [A] ∧
      (onAssemblySelectorClick walkMap2 geo2 A t2
        (onAssemblySelectorClick walkMap1 geo1 A t1 s).state).state.selectedAssemblies = [] ∧
      (onAssemblySelectorClick walkMap2 geo2 A t2
        (onAssemblySelectorClick walkMap1 geo1 A t1 s).state).state.published =
        (onAssemblySelectorClick walkMap1 geo1 A t1 s).state.published ++
          [BusEvent.normal geo2.nodeNameSet geo2.edgeNameSet] := by
  have h1 : (onAssemblySelectorClick walkMap1 geo1 A t1 s).thrown = none ∧
      (onAssemblySelectorClick walkMap1 geo1 A t1 s).state.selectedAssemblies = [A] := by
    unfold onAssemblySelectorClick
    rw [if_neg (by simp [setHas, hempty]), hempty]
    dsimp only
    rw [emphasizeAssembly_of_get _ _ _ entry hget]
    exact ⟨rfl, by simp [modifyItem, consoleLog, hempty, setAdd]⟩
  obtain ⟨h2, h3, _⟩ := click_deselect walkMap2 geo2 A t2
    (onAssemblySelectorClick walkMap1 geo1 A t1 s).state (by rw [h1.2]; simp)
  refine ⟨h1.1, h1.2, ?_, h3⟩
  rw [h2, h1.2, setDelete_singleton]

theorem select_then_deselect_witness :
    exampleWidget.selectedAssemblies = [] ∧
      (onAssemblySelectorClick exampleWalkMap exampleGeometry "chr1" 0
        (onAssemblySelectorClick exampleWalkMap exampleGeometry "chr1" 0
          exampleWidget).state).state.selectedAssemblies = [] ∧
      (onAssemblySelectorClick exampleWalkMap exampleGeometry "chr1" 0
        (onAssemblySelectorClick exampleWalkMap exampleGeometry "chr1" 0
          exampleWidget).state).state.published =
        (onAssemblySelectorClick exampleWalkMap exampleGeometry "chr1" 0
          exampleWidget).state.published ++ [BusEvent.normal ["n1", "n2", "n3"] ["e1"]] :=
  have h := select_then_deselect exampleWalkMap exampleWalkMap exampleGeometry exampleGeometry
    "chr1" 0 0 exampleWidget exampleEntry (by decide) (by decide)
  ⟨by decide, h.2.2.1, h.2.2.2⟩

/-! ### Mode switch -/

theorem updateModeLabel_state (s : Widget) :
    updateModeLabel s = { s with modeLabel := (updateModeLabel s).modeLabel } := by
  unfold updateModeLabel
  split
  · split <;> rfl
  · rfl

/-- Claim C4: when exactly one assembly S is selected and S has an entry in
`assemblyWalkMap`, a switch change sets the mode to spine-features if the switch
is checked and to subgraph otherwise, publishes exactly one event, an
`assembly:emphasis` for S whose node and edge sets come from the data source of
the new mode, and leaves the selection equal to S alone; when nothing is
selected the mode is set the same way and no event is published. -/
theorem switch_change_reemphasizes (walkMap : List (String × WalkEntry)) (isChecked : Bool)
    (s : Widget) :
    (∀ (S : String) (entry : WalkEntry), s.selectedAssemblies = [S] →
        mapGet walkMap S = some entry →
        (onSwitchChange walkMap isChecked s).thrown = none ∧
        (onSwitchChange walkMap isChecked s).state.emphasisMode =
          (if isChecked then EmphasisMode.spineFeatures else EmphasisMode.subgraph) ∧
        (onSwitchChange walkMap isChecked s).state.published = s.published ++
          [if isChecked then
             BusEvent.emphasis S (setOfArray (entry.spineFeatures.spine.nodes.map (fun n => n.id)))
               (setOfArray entry.spineFeatures.spine.edges)
           else
             BusEvent.emphasis S (setOfArray entry.assemblySubgraph.nodes)
               (setOfArray entry.assemblySubgraph.edges)] ∧
        (onSwitchChange walkMap isChecked s).state.selectedAssemblies = [S]) ∧
      (s.selectedAssemblies = [] →
        (onSwitchChange walkMap isChecked s).thrown = none ∧
        (onSwitchChange walkMap isChecked s).state.emphasisMode =
          (if isChecked then EmphasisMode.spineFeatures else EmphasisMode.subgraph) ∧
        (onSwitchChange walkMap isChecked s).state.published = s.published ∧
        (onSwitchChange walkMap isChecked s).state.selectedAssemblies = []) := by
  constructor
  · intro S entry hsel hget
    unfold onSwitchChange
    dsimp only
    rw [updateModeLabel_state]
    dsimp only
    cases isChecked <;>
      simp [consoleLog, hsel, emphasizeAssembly_of_get _ _ _ entry hget]
  · intro hsel
    unfold onSwitchChange
    dsimp only
    rw [updateModeLabel_state]
    dsimp only
    cases isChecked <;> simp [consoleLog, hsel]

theorem switch_change_reemphasizes_witness :
    (onAssemblySelectorClick exampleWalkMap exampleGeometry "chr1" 0
        exampleWidget).state.selectedAssemblies = ["chr1"] ∧
      (onSwitchChange exampleWalkMap true
        (onAssemblySelectorClick exampleWalkMap exampleGeometry "chr1" 0
          exampleWidget).state).state.published =
        [BusEvent.emphasis "chr1" ["m1"] ["f1", "f2"],
          BusEvent.emphasis "chr1" ["n1", "n2"] ["e1"]] ∧
      (onSwitchChange exampleWalkMap true
        (onAssemblySelectorClick exampleWalkMap exampleGeometry "chr1" 0
          exampleWidget).state).state.selectedAssemblies = ["chr1"] :=
  have h := (switch_change_reemphasizes exampleWalkMap true
      (onAssemblySelectorClick exampleWalkMap exampleGeometry "chr1" 0 exampleWidget).state).1
    "chr1" exampleEntry (by decide) (by decide)
  ⟨by decide, h.2.2.1, h.2.2.2⟩

/-! ### Text filter -/

theorem includes_empty (x : String) : includes x "" = true := by
  unfold includes
  rw [List.any_eq_true]
  exact ⟨x.data, by simp, by simp [List.isPrefixOf]⟩

theorem visible_showItem (s : Widget) (r : ElemId) (it : ListItem)
    (h : s.items r = showItem it) : visible s r = true := by
  simp [visible, h, showItem, classListRemove]

theorem visible_hideItem (s : Widget) (r : ElemId) (it : ListItem)
    (h : s.items r = hideItem it) : visible s r = false := by
  unfold visible
  rw [h]
  unfold hideItem classListAdd
  dsimp only
  split <;> simp_all

theorem itemsFold_of_not_mem {β : Type} (key : β → ElemId) (f : β → ListItem → ListItem)
    (l : List β) (items : ElemId → ListItem) (r : ElemId) (hr : r ∉ l.map key) :
    l.foldl (fun it e => Function.update it (key e) (f e (it (key e)))) items r = items r := by
  induction l generalizing items with
  | nil => rfl
  | cons e l ih =>
    rw [List.map_cons, List.mem_cons, not_or] at hr
    rw [List.foldl_cons, ih _ hr.2, Function.update_noteq hr.1]

theorem itemsFold_of_mem {β : Type} (key : β → ElemId) (f : β → ListItem → ListItem)
    (l : List β) (items : ElemId → ListItem) (hnodup : (l.map key).Nodup) (e : β) (he : e ∈ l) :
    l.foldl (fun it e => Function.update it (key e) (f e (it (key e)))) items (key e)
      = f e (items (key e)) := by
  induction l generalizing items with
  | nil => cases he
  | cons d l ih =>
    rw [List.map_cons, List.nodup_cons] at hnodup
    rw [List.foldl_cons]
    rcases List.mem_cons.1 he with rfl | hin
    · rw [itemsFold_of_not_mem key f l _ _ hnodup.1, Function.update_same]
    · have hne : key e ≠ key d := fun h => hnodup.1 (h ▸ List.mem_map_of_mem key hin)
      rw [ih _ hnodup.2 hin, Function.update_noteq hne]

theorem showAll_visible (l : List (String × ElemId)) (items : ElemId → ListItem) (r : ElemId) :
    (r ∈ l.map Prod.snd ∨ "d-none" ∉ (items r).classList) →
      "d-none" ∉ (l.foldl (fun it e => Function.update it e.2 (showItem (it e.2))) items r).classList := by
  induction l generalizing items with
  | nil =>
    rintro (h | h)
    · cases h
    · exact h
  | cons e l ih =>
    intro h
    rw [List.foldl_cons]
    apply ih
    by_cases hr : r = e.2
    · right
      subst hr
      simp [showItem, classListRemove]
    · rcases h with h | h
      · left
        simpa [hr] using h
      · right
        rwa [Function.update_noteq hr]

theorem filterAssemblies_eq (toLowerCase : String → String) (term : String) (s : Widget) :
    filterAssemblies toLowerCase term s =
      { s with items := s.allAssemblyItems.foldl (fun it e => Function.update it e.2
          ((if includes (toLowerCase e.1) term then showItem else hideItem) (it e.2))) s.items } := by
  unfold filterAssemblies
  rw [← foldl_modifyItem Prod.snd
    (fun e => if includes (toLowerCase e.1) term then showItem else hideItem)]
  congr 1
  funext st e
  dsimp only
  split <;> rfl

theorem filterAssemblies_empty_visible (toLowerCase : String → String) (s : Widget)
    (r : ElemId) (hr : r ∈ s.allAssemblyItems.map Prod.snd) :
    visible (filterAssemblies toLowerCase "" s) r = true := by
  rw [filterAssemblies_eq]
  have hf : (fun (it : ElemId → ListItem) (e : String × ElemId) => Function.update it e.2
      ((if includes (toLowerCase e.1) "" then showItem else hideItem) (it e.2)))
      = (fun it e => Function.update it e.2 (showItem (it e.2))) := by
    funext it e
    rw [includes_empty, if_pos rfl]
  rw [hf]
  have := showAll_visible s.allAssemblyItems s.items r (Or.inl hr)
  simpa [visible] using this

theorem filterAssemblies_visible (toLowerCase : String → String) (term : String) (s : Widget)
    (hrows : (s.allAssemblyItems.map Prod.snd).Nodup) (a : String) (r : ElemId)
    (hmem : (a, r) ∈ s.allAssemblyItems) :
    visible (filterAssemblies toLowerCase term s) r = includes (toLowerCase a) term := by
  have hitem := itemsFold_of_mem Prod.snd
    (fun e => if includes (toLowerCase e.1) term then showItem else hideItem)
    s.allAssemblyItems s.items hrows (a, r) hmem
  dsimp only at hitem
  cases hinc : includes (toLowerCase a) term with
  | true =>
    rw [hinc, if_pos rfl] at hitem
    exact visible_showItem _ _ _ (by rw [filterAssemblies_eq]; exact hitem)
  | false =>
    rw [hinc, if_neg (by simp)] at hitem
    exact visible_hideItem _ _ _ (by rw [filterAssemblies_eq]; exact hitem)

/-- Claim C2, as the code has it: after an input event every registered row is
visible exactly when the lower-cased identifier contains the lower-cased and then
trimmed text of the input, the registry being left as it was; and when that
trimmed text is empty every registered row is visible. -/
theorem search_filter_visibility (toLowerCase : String → String) (value : String) (s : Widget)
    (hrows : (s.allAssemblyItems.map Prod.snd).Nodup) :
    (onSearchInput toLowerCase value s).allAssemblyItems = s.allAssemblyItems ∧
      (∀ (a : String) (r : ElemId), (a, r) ∈ s.allAssemblyItems →
        (visible (onSearchInput toLowerCase value s) r = true ↔
          includes (toLowerCase a) (trim (toLowerCase value)) = true)) ∧
      (trim (toLowerCase value) = "" → ∀ (a : String) (r : ElemId),
        (a, r) ∈ s.allAssemblyItems → visible (onSearchInput toLowerCase value s) r = true) := by
  have hall : trim (toLowerCase value) = "" → ∀ (a : String) (r : ElemId),
      (a, r) ∈ s.allAssemblyItems → visible (onSearchInput toLowerCase value s) r = true := by
    intro hterm a r hmem
    unfold onSearchInput
    dsimp only
    rw [if_pos hterm, foldl_modifyItem Prod.snd (fun _ => showItem)]
    have := showAll_visible s.allAssemblyItems s.items r
      (Or.inl (List.mem_map_of_mem Prod.snd hmem))
    simpa [visible, consoleLog] using this
  refine ⟨?_, ?_, hall⟩
  · unfold onSearchInput
    dsimp only
    split
    · rw [foldl_modifyItem Prod.snd (fun _ => showItem)]
      rfl
    · rw [filterAssemblies_eq]
      rfl
  · intro a r hmem
    by_cases hterm : trim (toLowerCase value) = ""
    · rw [hall hterm a r hmem, hterm, includes_empty]
    · have hv := filterAssemblies_visible toLowerCase (trim (toLowerCase value))
        (consoleLog s ("Search term: " ++ trim (toLowerCase value))) hrows a r hmem
      unfold onSearchInput
      dsimp only
      rw [if_neg hterm, hv]

theorem search_filter_visibility_witness :
    (exampleWidget.allAssemblyItems.map Prod.snd).Nodup ∧
      visible (onSearchInput asciiLower " Chr " exampleWidget) 0 = true ∧
      visible (onSearchInput asciiLower " Chr " exampleWidget) 1 = true := by
  have h := search_filter_visibility asciiLower " Chr " exampleWidget (by decide)
  exact ⟨by decide, (h.2.1 "chr1" 0 (by decide)).2 (by decide),
    (h.2.1 "CHR2" 1 (by decide)).2 (by decide)⟩

/-- Claim C2 as stated fails: with the text `chr1` followed by a blank typed into
the input, the row of assembly `chr1` stays visible although `chr1` does not
contain that text, compared case-insensitively. -/
theorem search_filter_ignores_outer_blanks :
    ("chr1", 0) ∈ exampleWidget.allAssemblyItems ∧
      visible (onSearchInput asciiLower "chr1 " exampleWidget) 0 = true ∧
      containsIgnoringCase asciiLower "chr1" "chr1 " = false ∧
      ¬ (visible (onSearchInput asciiLower "chr1 " exampleWidget) 0 = true ↔
          containsIgnoringCase asciiLower "chr1" "chr1 " = true) := by
  decide

/-! ### Hiding the card -/

theorem initializeSwitchInput_searchInput (s : Widget) :
    (initializeSwitchInput s).searchInput = s.searchInput := by
  unfold initializeSwitchInput
  split <;> rfl

theorem initializeModeLabel_searchInput (s : Widget) :
    (initializeModeLabel s).searchInput = s.searchInput := by
  unfold initializeModeLabel
  split
  · rfl
  · rw [updateModeLabel_state]
    rfl
  · rfl

/-- Showing the card binds `this.searchInput` whenever the page holds the search
element, so the guard of `hideCard` is passed from then on. -/
theorem showCardTimeout_binds_search (s : Widget) (e : Lazy SearchInput)
    (h : s.searchInput = some e) :
    ∃ input : SearchInput, (showCardTimeout s).searchInput = some ⟨input, true⟩ := by
  unfold showCardTimeout
  rw [initializeModeLabel_searchInput, initializeSwitchInput_searchInput]
  unfold initializeSearchInput
  obtain ⟨input, b⟩ := e
  cases b with
  | true => exact ⟨input, by simp [h]⟩
  | false => exact ⟨_, by simp only [h]; rfl⟩

theorem hideCardTimeout_bound (toLowerCase : String → String) (t : Widget)
    (input : SearchInput) (ht : t.searchInput = some ⟨input, true⟩) :
    (hideCardTimeout toLowerCase t).searchInput = some ⟨{ input with value := "" }, true⟩ ∧
      (hideCardTimeout toLowerCase t).allAssemblyItems = t.allAssemblyItems ∧
      (hideCardTimeout toLowerCase t).containerDisplay = "none" ∧
      (hideCardTimeout toLowerCase t).timers = t.timers ∧
      ∀ (a : String) (r : ElemId), (a, r) ∈ t.allAssemblyItems →
        visible (hideCardTimeout toLowerCase t) r = true := by
  have heq : hideCardTimeout toLowerCase t = filterAssemblies toLowerCase ""
      { t with containerDisplay := "none",
               searchInput := some ⟨{ input with value := "" }, true⟩ } := by
    unfold hideCardTimeout
    simp only [ht]
  rw [heq]
  refine ⟨by rw [filterAssemblies_eq], by rw [filterAssemblies_eq],
    by rw [filterAssemblies_eq], by rw [filterAssemblies_eq], fun a r hmem => ?_⟩
  exact filterAssemblies_empty_visible toLowerCase _ r (List.mem_map_of_mem Prod.snd hmem)

theorem hideCardTimeout_unbound (toLowerCase : String → String) (t : Widget)
    (ht : ∀ input : SearchInput, t.searchInput ≠ some ⟨input, true⟩) :
    hideCardTimeout toLowerCase t = { t with containerDisplay := "none" } := by
  unfold hideCardTimeout
  dsimp only
  split
  · rename_i input heq
    exact absurd heq (ht input)
  · rfl

theorem runTimer_hideCard (toLowerCase : String → String) (s : Widget) :
    runTimer toLowerCase Timer.hideCard (hideCard s) =
      hideCardTimeout toLowerCase
        { hideCard s with timers := (hideCard s).timers.erase Timer.hideCard } := by
  unfold runTimer
  rw [if_pos (by simp [hideCard])]

/-- Claim C8, as the code has it: `hideCard` schedules its callback, and once
that callback has run the container is not displayed and the registry is as it
was; when `this.searchInput` has been initialised the text of the search input
is empty and every row of the registry is visible, whatever rows were hidden
before; when `this.searchInput` is still null the search input and every row
are left as they were. -/
theorem hide_clears_filter_when_initialised (toLowerCase : String → String) (s : Widget) :
    Timer.hideCard ∈ (hideCard s).timers ∧
      (runTimer toLowerCase Timer.hideCard (hideCard s)).containerDisplay = "none" ∧
      (runTimer toLowerCase Timer.hideCard (hideCard s)).allAssemblyItems
        = s.allAssemblyItems ∧
      (runTimer toLowerCase Timer.hideCard (hideCard s)).timers.length = s.timers.length ∧
      (∀ input : SearchInput, s.searchInput = some ⟨input, true⟩ →
        (runTimer toLowerCase Timer.hideCard (hideCard s)).searchInput
          = some ⟨{ input with value := "" }, true⟩ ∧
        ∀ (a : String) (r : ElemId), (a, r) ∈ s.allAssemblyItems →
          visible (runTimer toLowerCase Timer.hideCard (hideCard s)) r = true) ∧
      ((∀ input : SearchInput, s.searchInput ≠ some ⟨input, true⟩) →
        (runTimer toLowerCase Timer.hideCard (hideCard s)).searchInput = s.searchInput ∧
        (runTimer toLowerCase Timer.hideCard (hideCard s)).items = s.items) := by
  have hmem : Timer.hideCard ∈ (hideCard s).timers := by simp [hideCard]
  have hlen : ((hideCard s).timers.erase Timer.hideCard).length = s.timers.length := by
    rw [List.length_erase_of_mem hmem]
    simp [hideCard]
  rw [runTimer_hideCard]
  by_cases hb : ∃ input : SearchInput, s.searchInput = some ⟨input, true⟩
  · obtain ⟨input, hinput⟩ := hb
    obtain ⟨h1, h2, h3, h4, h5⟩ := hideCardTimeout_bound toLowerCase
      { hideCard s with timers := (hideCard s).timers.erase Timer.hideCard } input hinput
    refine ⟨hmem, h3, h2, ?_, ?_, ?_⟩
    · rw [h4]
      exact hlen
    · intro input2 hinput2
      rw [hinput] at hinput2
      cases hinput2
      exact ⟨h1, h5⟩
    · intro hnone
      exact absurd hinput (hnone input)
  · have hnone : ∀ input : SearchInput, s.searchInput ≠ some ⟨input, true⟩ :=
      fun input h => hb ⟨input, h⟩
    rw [hideCardTimeout_unbound toLowerCase
      { hideCard s with timers := (hideCard s).timers.erase Timer.hideCard } hnone]
    refine ⟨hmem, rfl, rfl, hlen, ?_, fun _ => ⟨rfl, rfl⟩⟩
    intro input hinput
    exact absurd hinput (hnone input)

theorem hide_clears_filter_when_initialised_witness :
    visible exampleFiltered 1 = false ∧
      (runTimer asciiLower Timer.hideCard (hideCard exampleFiltered)).searchInput
        = some ⟨⟨"", [⟨1, Handler.onSearchInput⟩]⟩, true⟩ ∧
      visible (runTimer asciiLower Timer.hideCard (hideCard exampleFiltered)) 0 = true ∧
      visible (runTimer asciiLower Timer.hideCard (hideCard exampleFiltered)) 1 = true :=
  have h := (hide_clears_filter_when_initialised asciiLower exampleFiltered).2.2.2.2.1
    ⟨"chr1", [⟨1, Handler.onSearchInput⟩]⟩ (by decide)
  ⟨by decide, h.1, h.2 "chr1" 0 (by decide), h.2 "CHR2" 1 (by decide)⟩

/-- Claim C8 as stated fails: on a page whose card is already shown, with the
text `chr1` in the search input and the row of `CHR2` hidden, a gear click hides
the card, and once the callback has run the search input still holds `chr1` and
the row of `CHR2` is still hidden, because `this.searchInput` is null. -/
theorem hide_keeps_filter_without_search_field :
    ("CHR2", 1) ∈ exampleUnbound.allAssemblyItems ∧
      exampleUnbound.searchInput = some ⟨⟨"chr1", []⟩, false⟩ ∧
      visible exampleUnbound 1 = false ∧
      onGearClick exampleUnbound = hideCard exampleUnbound ∧
      (runTimer asciiLower Timer.hideCard (onGearClick exampleUnbound)).containerDisplay
        = "none" ∧
      (runTimer asciiLower Timer.hideCard (onGearClick exampleUnbound)).searchInput
        = some ⟨⟨"chr1", []⟩, false⟩ ∧
      visible (runTimer asciiLower Timer.hideCard (onGearClick exampleUnbound)) 1 = false := by
  refine ⟨by decide, by decide, by decide, ?_, by decide, by decide, by decide⟩
  unfold onGearClick
  rw [if_pos (by decide)]

/-! ### Repopulation -/

theorem cleanupListItem_state (s : Widget) (r : ElemId) :
    cleanupListItem s r = { s with items := (cleanupListItem s r).items } := by
  unfold cleanupListItem
  split
  · rfl
  · split <;> rfl

theorem foldl_cleanupListItem_state (l : List ElemId) (s : Widget) :
    l.foldl cleanupListItem s = { s with items := (l.foldl cleanupListItem s).items } := by
  induction l generalizing s with
  | nil => rfl
  | cons r l ih =>
    rw [List.foldl_cons, ih, cleanupListItem_state]

theorem mapSet_of_not_mem {V : Type} (m : List (String × V)) (k : String) (v : V)
    (hk : k ∉ m.map Prod.fst) : mapSet m k v = m ++ [(k, v)] := by
  induction m with
  | nil => rfl
  | cons e m ih =>
    obtain ⟨k0, v0⟩ := e
    rw [List.map_cons, List.mem_cons, not_or] at hk
    unfold mapSet
    rw [if_neg (fun h => hk.1 h.symm), ih hk.2]
    rfl

theorem appendAssembly_eq {Color : Type} (f : Color → String) (st : Widget) (e : String × Color)
    (L : List ElemId) (hL : st.listGroup = some L) (hk : e.1 ∉ st.allAssemblyItems.map Prod.fst) :
    appendAssembly f st e =
      { st with listGroup := some (L ++ [st.nextElem]),
                allAssemblyItems := st.allAssemblyItems ++ [(e.1, st.nextElem)],
                nextElem := st.nextElem + 1,
                nextFn := st.nextFn + 1,
                items := Function.update st.items st.nextElem (createdRow f e.1 e.2 st.nextFn) } := by
  unfold appendAssembly createListItem
  simp only [hL, Option.map_some']
  rw [mapSet_of_not_mem _ _ _ hk]
  rfl

theorem foldl_appendAssembly {Color : Type} (f : Color → String) (p : List (String × Color))
    (st : Widget) (L : List ElemId) (hL : st.listGroup = some L)
    (hnodup : (p.map Prod.fst).Nodup)
    (hdisj : ∀ k ∈ p.map Prod.fst, k ∉ st.allAssemblyItems.map Prod.fst) :
    p.foldl (appendAssembly f) st =
        { st with listGroup := some (L ++ List.range' st.nextElem p.length),
                  allAssemblyItems := st.allAssemblyItems ++
                    (p.map Prod.fst).zip (List.range' st.nextElem p.length),
                  nextElem := st.nextElem + p.length,
                  nextFn := st.nextFn + p.length,
                  items := (p.foldl (appendAssembly f) st).items } ∧
      (∀ r, r < st.nextElem → (p.foldl (appendAssembly f) st).items r = st.items r) ∧
      (∀ (i : Nat) (e : String × Color), p[i]? = some e →
        (p.foldl (appendAssembly f) st).items (st.nextElem + i)
          = createdRow f e.1 e.2 (st.nextFn + i)) := by
  induction p generalizing st L with
  | nil =>
    refine ⟨?_, fun _ _ => rfl, fun i e h => by simp at h⟩
    cases st
    simp_all
  | cons e p ih =>
    rw [List.map_cons, List.nodup_cons] at hnodup
    have hk : e.1 ∉ st.allAssemblyItems.map Prod.fst := hdisj e.1 (by simp)
    have hstep := appendAssembly_eq f st e L hL hk
    have hdisj1 : ∀ k ∈ p.map Prod.fst,
        k ∉ (appendAssembly f st e).allAssemblyItems.map Prod.fst := by
      intro k hkp
      rw [hstep]
      simp only [List.map_append, List.mem_append, List.map_cons, List.map_nil,
        List.mem_singleton, not_or]
      exact ⟨hdisj k (by simp [hkp]), fun h => hnodup.1 (h ▸ hkp)⟩
    have hL1 : (appendAssembly f st e).listGroup = some (L ++ [st.nextElem]) := by rw [hstep]
    obtain ⟨h1, h2, h3⟩ := ih (appendAssembly f st e) (L ++ [st.nextElem]) hL1 hnodup.2 hdisj1
    have hn : (appendAssembly f st e).nextElem = st.nextElem + 1 := by rw [hstep]
    have hm : (appendAssembly f st e).nextFn = st.nextFn + 1 := by rw [hstep]
    have hit : (appendAssembly f st e).items
        = Function.update st.items st.nextElem (createdRow f e.1 e.2 st.nextFn) := by rw [hstep]
    rw [List.foldl_cons]
    refine ⟨?_, ?_, ?_⟩
    · rw [h1, hn, hm]
      rw [hstep]
      simp only [List.length_cons, List.map_cons, List.range'_succ, List.zip_cons_cons,
        List.append_assoc, List.singleton_append]
      congr 1 <;> omega
    · intro r hr
      rw [h2 r (by omega), hit, Function.update_noteq (Nat.ne_of_lt hr)]
    · intro i e' hi
      cases i with
      | zero =>
        simp only [List.getElem?_cons_zero, Option.some.injEq] at hi
        subst hi
        rw [Nat.add_zero, h2 _ (by omega), hit, Function.update_same]
        rfl
      | succ i =>
        rw [List.getElem?_cons_succ] at hi
        have := h3 i e' hi
        rw [hn, hm] at this
        rw [show st.nextElem + (i + 1) = st.nextElem + 1 + i by omega,
          show st.nextFn + (i + 1) = st.nextFn + 1 + i by omega]
        exact this

theorem populateList_spec {Color : Type} (f : Color → String) (p : List (String × Color))
    (s : Widget) (rows : List ElemId) (hrows : s.listGroup = some rows)
    (hkeys : (p.map Prod.fst).Nodup) :
    (populateList f p s).thrown = none ∧
      (populateList f p s).state =
        { s with listGroup := some (List.range' s.nextElem p.length),
                 allAssemblyItems := (p.map Prod.fst).zip (List.range' s.nextElem p.length),
                 nextElem := s.nextElem + p.length,
                 nextFn := s.nextFn + p.length,
                 items := (populateList f p s).state.items } ∧
      (∀ (i : Nat) (e : String × Color), p[i]? = some e →
        (populateList f p s).state.items (s.nextElem + i)
          = createdRow f e.1 e.2 (s.nextFn + i)) := by
  unfold populateList
  simp only [hrows]
  rw [foldl_cleanupListItem_state]
  obtain ⟨h1, _, h3⟩ := foldl_appendAssembly f p
    { s with items := ((rows.filter (fun r =>
                decide ("list-group-item" ∈ (s.items r).classList))).foldl cleanupListItem s).items,
             listGroup := some [], allAssemblyItems := [] }
    [] rfl hkeys (fun _ _ h => by simp at h)
  refine ⟨trivial, ?_, h3⟩
  rw [h1]
  simp

theorem mapGet_of_mem {V : Type} (m : List (String × V)) (hm : (m.map Prod.fst).Nodup)
    (k : String) (v : V) (h : (k, v) ∈ m) : mapGet m k = some v := by
  induction m with
  | nil => cases h
  | cons e m ih =>
    rw [List.map_cons, List.nodup_cons] at hm
    unfold mapGet
    rw [List.find?_cons]
    rcases List.mem_cons.1 h with rfl | hin
    · simp
    · have hne : e.1 ≠ k := fun heq => hm.1 (heq ▸ List.mem_map_of_mem Prod.fst hin)
      simp only [hne, decide_False]
      exact ih hm.2 hin

/-- Claim C6: when the list element is present and the payload has one entry per
identifier, `populateList` leaves a registry whose keys are exactly the payload
identifiers, each mapped to the row created for it in this call, and a list
holding exactly those rows, one per payload entry in payload order; none of
these rows is a row of the list or of the registry from before the call. -/
theorem populateList_rebuilds {Color : Type} (f : Color → String) (p : List (String × Color))
    (s : Widget) (rows : List ElemId) (hrows : s.listGroup = some rows)
    (hkeys : (p.map Prod.fst).Nodup)
    (hfresh : (∀ r ∈ rows, r < s.nextElem) ∧ ∀ e ∈ s.allAssemblyItems, e.2 < s.nextElem) :
    (populateList f p s).thrown = none ∧
      (populateList f p s).state.allAssemblyItems.map Prod.fst = p.map Prod.fst ∧
      (populateList f p s).state.allAssemblyItems.map Prod.snd
        = List.range' s.nextElem p.length ∧
      (populateList f p s).state.listGroup = some (List.range' s.nextElem p.length) ∧
      (∀ (i : Nat) (e : String × Color), p[i]? = some e →
        mapGet (populateList f p s).state.allAssemblyItems e.1 = some (s.nextElem + i) ∧
        (populateList f p s).state.items (s.nextElem + i)
          = createdRow f e.1 e.2 (s.nextFn + i)) ∧
      (∀ r ∈ List.range' s.nextElem p.length,
        r ∉ rows ∧ ∀ e ∈ s.allAssemblyItems, e.2 ≠ r) := by
  obtain ⟨h1, h2, h3⟩ := populateList_spec f p s rows hrows hkeys
  have hreg : (populateList f p s).state.allAssemblyItems
      = (p.map Prod.fst).zip (List.range' s.nextElem p.length) := by rw [h2]
  have hlen : (p.map Prod.fst).length = (List.range' s.nextElem p.length).length := by simp
  have hfst : (populateList f p s).state.allAssemblyItems.map Prod.fst = p.map Prod.fst := by
    rw [hreg, ← List.unzip_fst, List.unzip_zip hlen]
  have hsnd : (populateList f p s).state.allAssemblyItems.map Prod.snd
      = List.range' s.nextElem p.length := by
    rw [hreg, ← List.unzip_snd, List.unzip_zip hlen]
  refine ⟨h1, hfst, hsnd, by rw [h2], ?_, ?_⟩
  · intro i e hi
    refine ⟨?_, h3 i e hi⟩
    apply mapGet_of_mem _ (by rw [hfst]; exact hkeys)
    rw [hreg, List.mem_iff_getElem?]
    refine ⟨i, ?_⟩
    have hlt : i < p.length := by
      rcases Nat.lt_or_ge i p.length with h | h
      · exact h
      · rw [List.getElem?_eq_none h] at hi
        cases hi
    rw [List.getElem?_zip_eq_some]
    constructor
    · rw [List.getElem?_map, hi]
      rfl
    · rw [List.getElem?_range' _ _ hlt]
      simp
  · intro r hr
    rw [List.mem_range'_1] at hr
    refine ⟨fun hmem => ?_, fun e he heq => ?_⟩
    · exact absurd (hfresh.1 r hmem) (Nat.not_lt.2 hr.1)
    · exact absurd (heq ▸ hfresh.2 e he) (Nat.not_lt.2 hr.1)

theorem populateList_rebuilds_witness :
    (populateList (fun (c : String) => c) [("chr3", "green")] exampleWidget).state.listGroup
        = some [2] ∧
      (2 : ElemId) ∉ [0, 1] :=
  have h := populateList_rebuilds (fun (c : String) => c) [("chr3", "green")] exampleWidget
    [0, 1] (by decide) (by decide) (by decide)
  ⟨h.2.2.2.1, (h.2.2.2.2.2 2 (by decide)).1⟩

/-- Claim C3, as the code has it: when the list element is present and the
payload has one entry per identifier, `configure` does not throw, replaces the
registry by one entry per payload entry, each mapped to a row created in this
call, and leaves the selection set as it was. -/
theorem configure_rebuilds_registry_keeps_selection {Color : Type} (f : Color → String)
    (p : List (String × Color)) (s : Widget) (rows : List ElemId)
    (hrows : s.listGroup = some rows) (hkeys : (p.map Prod.fst).Nodup) :
    (configure f p s).thrown = none ∧
      (configure f p s).state.selectedAssemblies = s.selectedAssemblies ∧
      (configure f p s).state.allAssemblyItems
        = (p.map Prod.fst).zip (List.range' s.nextElem p.length) ∧
      (∀ (i : Nat) (e : String × Color), p[i]? = some e →
        (configure f p s).state.items (s.nextElem + i)
          = createdRow f e.1 e.2 (s.nextFn + i)) := by
  obtain ⟨h1, h2, h3⟩ := populateList_spec f p s rows hrows hkeys
  unfold configure
  refine ⟨h1, ?_, ?_, h3⟩
  · rw [h2]
  · rw [h2]

theorem configure_rebuilds_registry_keeps_selection_witness :
    (configure (fun (c : String) => c) [("chr3", "green")] exampleWidget).state.allAssemblyItems
        = [("chr3", 2)] ∧
      (configure (fun (c : String) => c) [("chr3", "green")] exampleWidget).state.selectedAssemblies
        = exampleWidget.selectedAssemblies :=
  have h := configure_rebuilds_registry_keeps_selection (fun (c : String) => c)
    [("chr3", "green")] exampleWidget [0, 1] (by decide) (by decide)
  ⟨h.2.2.1, h.2.1⟩

/-- Claim C3 as stated fails: with assembly `chr1` selected, `configure` with a
new payload leaves `chr1` in the selection set instead of emptying it. -/
theorem configure_does_not_clear_selection :
    (onAssemblySelectorClick exampleWalkMap exampleGeometry "chr1" 0
        exampleWidget).state.selectedAssemblies = ["chr1"] ∧
      (configure (fun (c : String) => c) [("chr3", "green")]
        (onAssemblySelectorClick exampleWalkMap exampleGeometry "chr1" 0
          exampleWidget).state).state.selectedAssemblies = ["chr1"] ∧
      (configure (fun (c : String) => c) [("chr3", "green")]
        (onAssemblySelectorClick exampleWalkMap exampleGeometry "chr1" 0
          exampleWidget).state).state.selectedAssemblies ≠ [] := by
  decide

/-! ### Missing elements and teardown -/

/-- For the three elements looked up when the card is shown, a missing element
is reported with `console.error` and the field stays null. -/
theorem initializers_log_missing_elements (s : Widget) :
    (s.searchInput = none →
        (initializeSearchInput s).searchInput = none ∧
        (initializeSearchInput s).console
          = s.console ++ [ConsoleEntry.error "Search input element not found"]) ∧
      (s.switchInput = none →
        (initializeSwitchInput s).switchInput = none ∧
        (initializeSwitchInput s).console
          = s.console ++ [ConsoleEntry.error "Switch input element not found"]) ∧
      (s.modeLabel = none →
        (initializeModeLabel s).modeLabel = none ∧
        (initializeModeLabel s).console
          = s.console ++ [ConsoleEntry.error "Mode label element not found"]) := by
  refine ⟨fun h => ?_, fun h => ?_, fun h => ?_⟩
  · unfold initializeSearchInput
    simp only [h]
    exact ⟨h, rfl⟩
  · unfold initializeSwitchInput
    simp only [h]
    exact ⟨h, rfl⟩
  · unfold initializeModeLabel
    simp only [h]
    exact ⟨h, rfl⟩

/-- In every state `destroy` leaves the gear listeners, the `assembly:normal`
subscription and the rows with their click listeners as they were. -/
theorem destroy_keeps_gear_bus_rows (s : Widget) :
    (destroy s).gearListeners = s.gearListeners ∧
      (destroy s).restoreSubscribed = s.restoreSubscribed ∧
      (destroy s).items = s.items ∧
      (destroy s).draggable.destroyed = true := by
  unfold destroy
  dsimp only
  split <;> split <;> exact ⟨rfl, rfl, rfl, rfl⟩

/-- A listener whose function object was made before `destroy` runs is not the
one `destroy` passes to `removeEventListener`. -/
theorem removeEventListener_fresh (ls : List BoundFn) (f : BoundFn)
    (h : ∀ l ∈ ls, l.id < f.id) : removeEventListener ls f = ls := by
  unfold removeEventListener
  rw [List.filter_eq_self]
  intro l hl
  simpa using Nat.ne_of_lt (h l hl)

/-- Claim C9 fails for the list element: on a page without `.list-group` the
constructor logs nothing and leaves `this.listGroup` null, and `configure` then
raises a TypeError where the claim promises a logged error and no exception. -/
theorem configure_throws_without_list :
    (construct pageWithoutList).listGroup = none ∧
      (construct pageWithoutList).console = [] ∧
      (configure (fun (c : String) => c) [("chr1", "red")] (construct pageWithoutList)).thrown
        = some (JSError.typeError "this.listGroup is null") ∧
      (configure (fun (c : String) => c) [("chr1", "red")]
        (construct pageWithoutList)).state.console = [] := by
  decide

/-- Claim C10 fails: after construction, showing the card and populating the
list, `destroy` leaves the gear listener, the `assembly:normal` subscription,
the search and switch listeners and the row click listeners all registered; only
the draggable is destroyed. -/
theorem destroy_leaves_listeners :
    (destroy exampleWidget).draggable.destroyed = true ∧
      (destroy exampleWidget).gearListeners = [⟨0, Handler.onGearClick⟩] ∧
      (destroy exampleWidget).restoreSubscribed = true ∧
      (destroy exampleWidget).searchInput = some ⟨⟨"", [⟨1, Handler.onSearchInput⟩]⟩, true⟩ ∧
      (destroy exampleWidget).switchInput = some ⟨⟨[⟨2, Handler.onSwitchChange⟩]⟩, true⟩ ∧
      (((destroy exampleWidget).items 0).selector.map (fun sel => sel.clickListeners))
        = some [⟨3, Handler.onAssemblySelectorClick "chr1"⟩] ∧
      (((destroy exampleWidget).items 1).selector.map (fun sel => sel.clickListeners))
        = some [⟨4, Handler.onAssemblySelectorClick "CHR2"⟩] := by
  decide

end AssemblyWidget
